import Mathlib

/-!
Verification of the `cssSelectorBuilder` component of `src/objects-tasks.js`.

The builder state is the `selectors` array carried by the root object
`cssSelectorBuilder` and by every `BaseElement` produced from it.  Each
entry of that array is an object `{ type, value, order }` built by
`privatMethod`.  Errors (JavaScript `throw new Error(msg)`) are embedded
as `Except String`, carrying the exact message string thrown.
-/

/-- One entry of the `selectors` array: the object
`{ type, value: prefix + value + prefixEnd, order }` built by
`cssSelectorBuilder.privatMethod`. -/
structure SelectorFragment where
  type : String
  value : String
  order : Nat
deriving Repr, DecidableEq

/-- The builder state: the `selectors` array held by the root object
`cssSelectorBuilder` and by each `BaseElement` instance (the `BaseElement`
constructor copies the methods and installs the new array; the array is
the only data the methods consult). -/
structure Builder where
  selectors : List SelectorFragment
deriving Repr, DecidableEq

/-- Message of the error thrown by `BaseElement.checkOrder`. -/
def orderErrorMsg : String :=
  "Selector parts should be arranged in the following order: element, id, class, attribute, pseudo-class, pseudo-element"

/-- Message of the error thrown by `cssSelectorBuilder.validateMetod`. -/
def duplicateErrorMsg : String :=
  "Element, id and pseudo-element should not occur more then one time inside the selector"

/-- The scan of `BaseElement.checkOrder`: `prevElOrder` starts at 0 and the
`forEach` throws as soon as some `el.order < prevElOrder`; `false` means the
error is thrown, `true` means the scan completes. -/
def checkOrderAux : Nat → List SelectorFragment → Bool
  | _, [] => true
  | prevElOrder, el :: rest =>
    if el.order < prevElOrder then false else checkOrderAux el.order rest

/-- `BaseElement.checkOrder` run on a `selectors` array. -/
def checkOrder (sels : List SelectorFragment) : Bool :=
  checkOrderAux 0 sels

/-- The `validateArr` constant of `cssSelectorBuilder.validateMetod`. -/
def validateArr : List String := ["element", "id", "pseudoElement"]

namespace cssSelectorBuilder

/-- The root object `cssSelectorBuilder`, whose `selectors` property is the
empty array. -/
def rootBuilder : Builder := ⟨[]⟩

/-- `cssSelectorBuilder.validateMetod(selectorType)`: counts the fragments of
each type and throws when `selectorType` is listed in `validateArr` and its
count is positive. -/
def validateMetod (b : Builder) (selectorType : String) : Except String Unit :=
  if validateArr.contains selectorType ∧
      0 < b.selectors.countP (fun el => el.type == selectorType) then
    Except.error duplicateErrorMsg
  else
    Except.ok ()

/-- `cssSelectorBuilder.privatMethod(prefix, order, type, value, prefixEnd)`
followed by `new BaseElement(this, { selectors: newSelectors })`, whose
constructor runs `checkOrder` on the new array (the source's `prefixEnd`
default `''` is passed explicitly at each call site here). -/
def privatMethod (b : Builder) (pre : String) (order : Nat) (type : String)
    (value : String) (preEnd : String) : Except String Builder :=
  let newSelectors := b.selectors ++ [⟨type, pre ++ value ++ preEnd, order⟩]
  if checkOrder newSelectors then Except.ok ⟨newSelectors⟩
  else Except.error orderErrorMsg

/-- `cssSelectorBuilder.element(value)`. -/
def element (b : Builder) (value : String) : Except String Builder :=
  match validateMetod b "element" with
  | Except.error e => Except.error e
  | Except.ok _ => privatMethod b "" 1 "element" value ""

/-- `cssSelectorBuilder.id(value)`. -/
def id (b : Builder) (value : String) : Except String Builder :=
  match validateMetod b "id" with
  | Except.error e => Except.error e
  | Except.ok _ => privatMethod b "#" 2 "id" value ""

/-- `cssSelectorBuilder.class(value)` (`class` is a reserved word in Lean,
hence the name `classSel`). -/
def classSel (b : Builder) (value : String) : Except String Builder :=
  match validateMetod b "class" with
  | Except.error e => Except.error e
  | Except.ok _ => privatMethod b "." 3 "class" value ""

/-- `cssSelectorBuilder.attr(value)`. -/
def attr (b : Builder) (value : String) : Except String Builder :=
  match validateMetod b "attr" with
  | Except.error e => Except.error e
  | Except.ok _ => privatMethod b "[" 4 "attr" value "]"

/-- `cssSelectorBuilder.pseudoClass(value)`. -/
def pseudoClass (b : Builder) (value : String) : Except String Builder :=
  match validateMetod b "pseudoClass" with
  | Except.error e => Except.error e
  | Except.ok _ => privatMethod b ":" 5 "pseudoClass" value ""

/-- `cssSelectorBuilder.pseudoElement(value)`. -/
def pseudoElement (b : Builder) (value : String) : Except String Builder :=
  match validateMetod b "pseudoElement" with
  | Except.error e => Except.error e
  | Except.ok _ => privatMethod b "::" 6 "pseudoElement" value ""

/-- `cssSelectorBuilder.stringify()`: `selectors.reduce((acc, el) => acc + el.value, '')`. -/
def stringify (b : Builder) : String :=
  b.selectors.foldl (fun acc el => acc ++ el.value) ""

end cssSelectorBuilder

/-- A value exposing `stringify()`: either a builder state or the object
returned by `cssSelectorBuilder.combine` (which closes over its three
arguments). -/
inductive Stringifiable where
  | sel (b : Builder)
  | combined (selector1 : Stringifiable) (combinator : String) (selector2 : Stringifiable)
deriving Repr

/-- `cssSelectorBuilder.combine(selector1, combinator, selector2)`: returns
an object whose `stringify` closes over the three arguments. -/
def combine (selector1 : Stringifiable) (combinator : String)
    (selector2 : Stringifiable) : Stringifiable :=
  Stringifiable.combined selector1 combinator selector2

/-- The `stringify()` of a `Stringifiable`: on a builder state it is
`cssSelectorBuilder.stringify`; on a combined object it is the template
literal of `combine`. -/
def stringifyS : Stringifiable → String
  | Stringifiable.sel b => cssSelectorBuilder.stringify b
  | Stringifiable.combined s1 comb s2 =>
    stringifyS s1 ++ " " ++ comb ++ " " ++ stringifyS s2

/-- One builder method call with its string argument. -/
inductive Call where
  | element (value : String)
  | id (value : String)
  | classCall (value : String)
  | attr (value : String)
  | pseudoClass (value : String)
  | pseudoElement (value : String)
deriving Repr, DecidableEq

/-- Dispatch a `Call` to the corresponding builder method. -/
def applyCall (b : Builder) : Call → Except String Builder
  | Call.element v => cssSelectorBuilder.element b v
  | Call.id v => cssSelectorBuilder.id b v
  | Call.classCall v => cssSelectorBuilder.classSel b v
  | Call.attr v => cssSelectorBuilder.attr b v
  | Call.pseudoClass v => cssSelectorBuilder.pseudoClass b v
  | Call.pseudoElement v => cssSelectorBuilder.pseudoElement b v

/-- The receiver's state after a method call, paired with the call's result.
The source methods only read `this.selectors` (spreading it into a fresh
array) and never assign to the receiver, so the receiver component is the
input state unchanged. -/
def applyCallFull (b : Builder) (c : Call) : Builder × Except String Builder :=
  (b, applyCall b c)

/-- Run a chain of builder calls; a thrown error aborts the chain, as a
JavaScript exception propagates out of the method chain. -/
def runChain (b : Builder) : List Call → Except String Builder
  | [] => Except.ok b
  | c :: cs =>
    match applyCall b c with
    | Except.ok b2 => runChain b2 cs
    | Except.error e => Except.error e

/-- The `type` string constant of the method a `Call` invokes. -/
def callType : Call → String
  | Call.element _ => "element"
  | Call.id _ => "id"
  | Call.classCall _ => "class"
  | Call.attr _ => "attr"
  | Call.pseudoClass _ => "pseudoClass"
  | Call.pseudoElement _ => "pseudoElement"

/-- The `order` constant of the method a `Call` invokes. -/
def callOrder : Call → Nat
  | Call.element _ => 1
  | Call.id _ => 2
  | Call.classCall _ => 3
  | Call.attr _ => 4
  | Call.pseudoClass _ => 5
  | Call.pseudoElement _ => 6

/-- The fragment object `privatMethod` appends for a given `Call`, exactly as
the source computes it (`prefix + value + prefixEnd`). -/
def callFragment : Call → SelectorFragment
  | Call.element v => ⟨"element", "" ++ v ++ "", 1⟩
  | Call.id v => ⟨"id", "#" ++ v ++ "", 2⟩
  | Call.classCall v => ⟨"class", "." ++ v ++ "", 3⟩
  | Call.attr v => ⟨"attr", "[" ++ v ++ "]", 4⟩
  | Call.pseudoClass v => ⟨"pseudoClass", ":" ++ v ++ "", 5⟩
  | Call.pseudoElement v => ⟨"pseudoElement", "::" ++ v ++ "", 6⟩

/-- Modelled from the spec: the formatted text each operation contributes to
the final string — `element(value)` contributes `value` verbatim, `id`
prepends `#`, `class` prepends `.`, `attribute` wraps in brackets,
`pseudoClass` prepends `:`, `pseudoElement` prepends `::`. -/
def specFragmentText : Call → String
  | Call.element v => v
  | Call.id v => "#" ++ v
  | Call.classCall v => "." ++ v
  | Call.attr v => "[" ++ v ++ "]"
  | Call.pseudoClass v => ":" ++ v
  | Call.pseudoElement v => "::" ++ v

/-- The condition under which `validateMetod` throws for a given call: the
call's type is listed in `validateArr` and a fragment of that type is
already present. -/
def dupCond (b : Builder) (c : Call) : Prop :=
  validateArr.contains (callType c) ∧
    0 < b.selectors.countP (fun el => el.type == callType c)

instance (b : Builder) (c : Call) : Decidable (dupCond b c) :=
  inferInstanceAs (Decidable (_ ∧ _))

/-- A list of ranks is nondecreasing when each entry is at most its
successor (the spec's ordering invariant, stated independently of
`checkOrder`). -/
def nondecreasingB : List Nat → Bool
  | [] => true
  | [_] => true
  | a :: b :: rest => decide (a ≤ b) && nondecreasingB (b :: rest)

/-- The spec's Selector invariant: fragment ranks nondecreasing in append
order, and fragments of type element, id and pseudoElement each occurring
at most once. -/
def Invariant (b : Builder) : Prop :=
  nondecreasingB (b.selectors.map SelectorFragment.order) = true ∧
  ∀ t ∈ validateArr, b.selectors.countP (fun el => el.type == t) ≤ 1

/-! Helper lemmas -/

theorem string_empty_append (s : String) : "" ++ s = s := by
  cases s
  rfl

theorem string_append_empty (s : String) : s ++ "" = s := by
  cases s with
  | mk data =>
    show String.mk (data ++ []) = String.mk data
    rw [List.append_nil]

theorem callFragment_type (c : Call) : (callFragment c).type = callType c := by
  cases c <;> rfl

theorem callFragment_order (c : Call) : (callFragment c).order = callOrder c := by
  cases c <;> rfl

theorem callFragment_value (c : Call) :
    (callFragment c).value = specFragmentText c := by
  cases c with
  | element v =>
    show ("" ++ v) ++ "" = v
    rw [string_append_empty, string_empty_append]
  | id v =>
    show ("#" ++ v) ++ "" = "#" ++ v
    rw [string_append_empty]
  | classCall v =>
    show ("." ++ v) ++ "" = "." ++ v
    rw [string_append_empty]
  | attr v => rfl
  | pseudoClass v =>
    show (":" ++ v) ++ "" = ":" ++ v
    rw [string_append_empty]
  | pseudoElement v =>
    show ("::" ++ v) ++ "" = "::" ++ v
    rw [string_append_empty]

theorem applyCall_eq (b : Builder) (c : Call) :
    applyCall b c =
      if dupCond b c then Except.error duplicateErrorMsg
      else if checkOrder (b.selectors ++ [callFragment c]) then
        Except.ok ⟨b.selectors ++ [callFragment c]⟩
      else Except.error orderErrorMsg := by
  cases c <;>
    simp only [applyCall, cssSelectorBuilder.element, cssSelectorBuilder.id,
      cssSelectorBuilder.classSel, cssSelectorBuilder.attr,
      cssSelectorBuilder.pseudoClass, cssSelectorBuilder.pseudoElement,
      cssSelectorBuilder.validateMetod, cssSelectorBuilder.privatMethod,
      dupCond, callType, callFragment] <;>
    split_ifs <;> rfl

theorem checkOrderAux_append (l : List SelectorFragment) (p : Nat)
    (x : SelectorFragment) :
    checkOrderAux p (l ++ [x]) =
      (checkOrderAux p l &&
        decide ((l.map SelectorFragment.order).getLastD p ≤ x.order)) := by
  induction l generalizing p with
  | nil =>
    simp only [List.nil_append, checkOrderAux, List.map_nil, List.getLastD_nil,
      Bool.true_and]
    by_cases h : x.order < p
    · rw [if_pos h]
      exact (decide_eq_false (by omega)).symm
    · rw [if_neg h]
      exact (decide_eq_true (by omega)).symm
  | cons e l ih =>
    simp only [List.cons_append, checkOrderAux, List.map_cons, List.getLastD_cons]
    by_cases h : e.order < p
    · simp [h]
    · simp [h, ih]

theorem checkOrderAux_eq_nondecreasingB (l : List SelectorFragment) (p : Nat) :
    checkOrderAux p l = nondecreasingB (p :: l.map SelectorFragment.order) := by
  induction l generalizing p with
  | nil => rfl
  | cons e l ih =>
    simp only [checkOrderAux, List.map_cons, nondecreasingB]
    by_cases h : e.order < p
    · rw [if_pos h, decide_eq_false (by omega : ¬ p ≤ e.order)]
      simp
    · rw [if_neg h, decide_eq_true (by omega : p ≤ e.order), Bool.true_and, ih]

theorem nondecreasingB_cons_zero (l : List Nat) :
    nondecreasingB (0 :: l) = nondecreasingB l := by
  cases l with
  | nil => rfl
  | cons a l => simp [nondecreasingB, Nat.zero_le]

theorem nondecreasingB_tail {a : Nat} {l : List Nat}
    (h : nondecreasingB (a :: l) = true) : nondecreasingB l = true := by
  cases l with
  | nil => rfl
  | cons b l =>
    simp only [nondecreasingB, Bool.and_eq_true] at h
    exact h.2

theorem checkOrder_eq_nondecreasingB (sels : List SelectorFragment) :
    checkOrder sels = nondecreasingB (sels.map SelectorFragment.order) := by
  rw [checkOrder, checkOrderAux_eq_nondecreasingB, nondecreasingB_cons_zero]

theorem checkOrder_append (sels : List SelectorFragment) (x : SelectorFragment) :
    checkOrder (sels ++ [x]) =
      (checkOrder sels &&
        decide ((sels.map SelectorFragment.order).getLastD 0 ≤ x.order)) := by
  rw [checkOrder, checkOrder, checkOrderAux_append]

theorem applyCall_ok (b b2 : Builder) (c : Call)
    (h : applyCall b c = Except.ok b2) :
    ¬ dupCond b c ∧ checkOrder (b.selectors ++ [callFragment c]) = true ∧
      b2 = ⟨b.selectors ++ [callFragment c]⟩ := by
  rw [applyCall_eq] at h
  by_cases h1 : dupCond b c
  · rw [if_pos h1] at h
    exact absurd h (by simp)
  · rw [if_neg h1] at h
    by_cases h2 : checkOrder (b.selectors ++ [callFragment c]) = true
    · rw [if_pos h2] at h
      exact ⟨h1, h2, (Except.ok.inj h).symm⟩
    · rw [if_neg h2] at h
      exact absurd h (by simp)

theorem applyCall_ok_of (b : Builder) (c : Call) (h1 : ¬ dupCond b c)
    (h2 : checkOrder (b.selectors ++ [callFragment c]) = true) :
    applyCall b c = Except.ok ⟨b.selectors ++ [callFragment c]⟩ := by
  rw [applyCall_eq, if_neg h1, if_pos h2]

theorem applyCall_error_dup (b : Builder) (c : Call) (h1 : dupCond b c) :
    applyCall b c = Except.error duplicateErrorMsg := by
  rw [applyCall_eq, if_pos h1]

theorem applyCall_error_order (b : Builder) (c : Call) (h1 : ¬ dupCond b c)
    (h2 : checkOrder (b.selectors ++ [callFragment c]) = false) :
    applyCall b c = Except.error orderErrorMsg := by
  rw [applyCall_eq, if_neg h1, if_neg (by rw [h2]; simp)]

theorem runChain_ok_selectors (calls : List Call) (b b2 : Builder)
    (h : runChain b calls = Except.ok b2) :
    b2.selectors = b.selectors ++ calls.map callFragment := by
  induction calls generalizing b with
  | nil =>
    simp only [runChain] at h
    cases h
    simp
  | cons c cs ih =>
    rw [runChain] at h
    split at h
    · rename_i b1 hc
      have h3 := applyCall_ok b b1 c hc
      have h4 := ih b1 h
      rw [h4, h3.2.2]
      simp
    · exact absurd h (by simp)

/-! Claim theorems -/

/-- C10: calling stringify() directly on the builder root, before any
fragment has been appended, returns the empty string rather than raising an
error. -/
theorem root_stringify_empty :
    cssSelectorBuilder.stringify cssSelectorBuilder.rootBuilder = "" := rfl

/-- C5: combine(left, c, right) accepts any combinator string c verbatim and
returns a CombinedSelector whose stringify() equals
left.stringify() + " " + c + " " + right.stringify(), with exactly one space
on each side of the combinator; nesting combine results is allowed
(Stringifiable operands include combined values) and, as in the documented
example with combinator " ", adjacent spaces appear in the output. -/
theorem combine_stringify_spec :
    (∀ (selector1 selector2 : Stringifiable) (combinator : String),
      stringifyS (combine selector1 combinator selector2) =
        stringifyS selector1 ++ " " ++ combinator ++ " " ++ stringifyS selector2) ∧
    stringifyS
        (combine
          (Stringifiable.sel
            ⟨[⟨"element", "tr", 1⟩, ⟨"pseudoClass", ":nth-of-type(even)", 5⟩]⟩)
          " "
          (Stringifiable.sel
            ⟨[⟨"element", "td", 1⟩, ⟨"pseudoClass", ":nth-of-type(even)", 5⟩]⟩)) =
      "tr:nth-of-type(even)   td:nth-of-type(even)" :=
  ⟨fun _ _ _ => rfl, rfl⟩

/-- C1: for every chain of successful builder calls from the root,
stringify() returns the concatenation, in call order with no separator, of
each fragment's formatted text, where element(value) contributes value
verbatim, id prepends "#", class prepends ".", attr (the spec's attribute)
wraps in "[" and "]", pseudoClass prepends ":", and pseudoElement prepends
"::". -/
theorem stringify_concats_fragment_texts (calls : List Call) (b : Builder)
    (h : runChain cssSelectorBuilder.rootBuilder calls = Except.ok b) :
    cssSelectorBuilder.stringify b = String.join (calls.map specFragmentText) := by
  have h1 := runChain_ok_selectors calls _ b h
  simp only [cssSelectorBuilder.rootBuilder, List.nil_append] at h1
  rw [cssSelectorBuilder.stringify, h1]
  simp only [String.join, List.foldl_map, callFragment_value]

/-- Witness for C1 at the documented scenario
element("a").attr(givenValue).pseudoClass("focus"). -/
theorem stringify_concats_fragment_texts_witness :
    runChain cssSelectorBuilder.rootBuilder
        [Call.element "a", Call.attr "href$=\".png\"", Call.pseudoClass "focus"] =
      Except.ok ⟨[⟨"element", "a", 1⟩, ⟨"attr", "[href$=\".png\"]", 4⟩,
        ⟨"pseudoClass", ":focus", 5⟩]⟩ ∧
    cssSelectorBuilder.stringify
        ⟨[⟨"element", "a", 1⟩, ⟨"attr", "[href$=\".png\"]", 4⟩,
          ⟨"pseudoClass", ":focus", 5⟩]⟩ =
      String.join
        ([Call.element "a", Call.attr "href$=\".png\"",
          Call.pseudoClass "focus"].map specFragmentText) ∧
    cssSelectorBuilder.stringify
        ⟨[⟨"element", "a", 1⟩, ⟨"attr", "[href$=\".png\"]", 4⟩,
          ⟨"pseudoClass", ":focus", 5⟩]⟩ = "a[href$=\".png\"]:focus" :=
  ⟨rfl, stringify_concats_fragment_texts _ _ rfl, rfl⟩

/-- C8: no builder call mutates its receiver: the receiver's state after a
call is unchanged, every successful call returns a new Selector holding the
previous fragment sequence plus one appended fragment, the root's fragment
sequence is empty, and two calls branching from the same receiver each
extend that same receiver independently. -/
theorem builder_calls_immutable (b : Builder) (c c2 : Call) (b2 b3 : Builder)
    (h : applyCall b c = Except.ok b2) (h2 : applyCall b c2 = Except.ok b3) :
    cssSelectorBuilder.rootBuilder.selectors = [] ∧
    (applyCallFull b c).1 = b ∧
    b2.selectors = b.selectors ++ [callFragment c] ∧
    b3.selectors = b.selectors ++ [callFragment c2] := by
  refine ⟨rfl, rfl, ?_, ?_⟩
  · rw [(applyCall_ok b b2 c h).2.2]
  · rw [(applyCall_ok b b3 c2 h2).2.2]

/-- Witness for C8: element("div") and id("main") branch from the same
root. -/
theorem builder_calls_immutable_witness :
    applyCall cssSelectorBuilder.rootBuilder (Call.element "div") =
      Except.ok ⟨[⟨"element", "div", 1⟩]⟩ ∧
    applyCall cssSelectorBuilder.rootBuilder (Call.id "main") =
      Except.ok ⟨[⟨"id", "#main", 2⟩]⟩ ∧
    (cssSelectorBuilder.rootBuilder.selectors = [] ∧
      (applyCallFull cssSelectorBuilder.rootBuilder (Call.element "div")).1 =
        cssSelectorBuilder.rootBuilder ∧
      Builder.selectors ⟨[⟨"element", "div", 1⟩]⟩ =
        cssSelectorBuilder.rootBuilder.selectors ++
          [callFragment (Call.element "div")] ∧
      Builder.selectors ⟨[⟨"id", "#main", 2⟩]⟩ =
        cssSelectorBuilder.rootBuilder.selectors ++
          [callFragment (Call.id "main")]) :=
  ⟨rfl, rfl, builder_calls_immutable _ _ _ _ _ rfl rfl⟩

/-- C9: appending is atomic on failure: when a builder call on s raises an
error, s's fragment sequence is unchanged by the failed call, and a
subsequent call on the same s returns the same result as if the failed call
had never been attempted. -/
theorem failed_call_atomic (b : Builder) (c c2 : Call) (e : String)
    (h : applyCall b c = Except.error e) :
    (applyCallFull b c).1 = b ∧
    applyCall ((applyCallFull b c).1) c2 = applyCall b c2 :=
  ⟨rfl, rfl⟩

/-- Witness for C9: a duplicate element call on element("a") fails, and a
subsequent class("x") call on the same receiver still succeeds. -/
theorem failed_call_atomic_witness :
    applyCall ⟨[⟨"element", "a", 1⟩]⟩ (Call.element "b") =
      Except.error duplicateErrorMsg ∧
    ((applyCallFull ⟨[⟨"element", "a", 1⟩]⟩ (Call.element "b")).1 =
        ⟨[⟨"element", "a", 1⟩]⟩ ∧
      applyCall ((applyCallFull ⟨[⟨"element", "a", 1⟩]⟩ (Call.element "b")).1)
          (Call.classCall "x") =
        applyCall ⟨[⟨"element", "a", 1⟩]⟩ (Call.classCall "x")) ∧
    applyCall ⟨[⟨"element", "a", 1⟩]⟩ (Call.classCall "x") =
      Except.ok ⟨[⟨"element", "a", 1⟩, ⟨"class", ".x", 3⟩]⟩ :=
  ⟨rfl, failed_call_atomic _ _ _ duplicateErrorMsg rfl, rfl⟩

/-- C2 counterexample: the chain element("a").class("b").element("c")
appends a fragment of rank 1 whose immediately preceding fragment has rank
3, yet the call fails with the duplicate-singleton error, not the
out-of-order error. -/
theorem lower_rank_counterexample :
    callOrder (Call.element "c") < (⟨"class", ".b", 3⟩ : SelectorFragment).order ∧
    runChain cssSelectorBuilder.rootBuilder
        [Call.element "a", Call.classCall "b"] =
      Except.ok ⟨[⟨"element", "a", 1⟩, ⟨"class", ".b", 3⟩]⟩ ∧
    applyCall ⟨[⟨"element", "a", 1⟩, ⟨"class", ".b", 3⟩]⟩ (Call.element "c") =
      Except.error duplicateErrorMsg ∧
    duplicateErrorMsg ≠ orderErrorMsg :=
  ⟨by decide, rfl, rfl, by decide⟩

/-- C2 (amended): a builder call appending a fragment of rank strictly lower
than the rank of the immediately preceding fragment of the current Selector
fails with the out-of-order error, provided the call's kind is not a
singleton kind already present (in which case the duplicate-singleton error
is raised instead); and a call of rank equal to the preceding fragment's
rank never raises the out-of-order error. -/
theorem lower_rank_raises_order_error (b : Builder) (c : Call)
    (f : SelectorFragment) (hlast : b.selectors.getLast? = some f)
    (hvalid : checkOrder b.selectors = true) :
    (callOrder c < f.order → ¬ dupCond b c →
      applyCall b c = Except.error orderErrorMsg) ∧
    (callOrder c = f.order → applyCall b c ≠ Except.error orderErrorMsg) := by
  have hld : (b.selectors.map SelectorFragment.order).getLastD 0 = f.order := by
    rw [List.getLastD_eq_getLast?, List.getLast?_map, hlast]
    rfl
  constructor
  · intro hlt hdup
    apply applyCall_error_order b c hdup
    rw [checkOrder_append, hvalid, hld, callFragment_order, Bool.true_and]
    exact decide_eq_false (by omega)
  · intro heq hcontra
    rw [applyCall_eq] at hcontra
    by_cases hdup : dupCond b c
    · rw [if_pos hdup] at hcontra
      exact absurd (Except.error.inj hcontra) (by decide)
    · rw [if_neg hdup] at hcontra
      have hck : checkOrder (b.selectors ++ [callFragment c]) = true := by
        rw [checkOrder_append, hvalid, hld, callFragment_order, Bool.true_and]
        exact decide_eq_true (by omega)
      rw [if_pos hck] at hcontra
      exact absurd hcontra (by simp)

/-- Witness for C2 (amended): element("d") after class("a") raises the
out-of-order error. -/
theorem lower_rank_raises_order_error_witness :
    (⟨[⟨"class", ".a", 3⟩]⟩ : Builder).selectors.getLast? =
      some ⟨"class", ".a", 3⟩ ∧
    checkOrder (⟨[⟨"class", ".a", 3⟩]⟩ : Builder).selectors = true ∧
    applyCall ⟨[⟨"class", ".a", 3⟩]⟩ (Call.element "d") =
      Except.error orderErrorMsg :=
  ⟨rfl, rfl,
    (lower_rank_raises_order_error ⟨[⟨"class", ".a", 3⟩]⟩ (Call.element "d")
        ⟨"class", ".a", 3⟩ rfl rfl).1 (by decide) (by decide)⟩

/-- C3 counterexample: the claim says the duplicate error identifies the
kind, but the code throws one fixed message: a duplicate element and a
duplicate id raise the very same error value, which therefore identifies no
kind. -/
theorem duplicate_error_not_identifying_counterexample :
    runChain cssSelectorBuilder.rootBuilder
        [Call.element "a", Call.element "b"] =
      Except.error duplicateErrorMsg ∧
    runChain cssSelectorBuilder.rootBuilder [Call.id "a", Call.id "b"] =
      Except.error duplicateErrorMsg ∧
    duplicateErrorMsg =
      "Element, id and pseudo-element should not occur more then one time inside the selector" :=
  ⟨rfl, rfl, rfl⟩

/-- C3 (amended): appending a fragment of kind element, id, or pseudoElement
to a Selector already containing a fragment of that kind fails with the
duplicate-singleton error (one fixed message, the same for all three kinds),
even if the ordering rule would otherwise be satisfied; fragments of kind
class, attr, and pseudoClass never trigger this error. -/
theorem duplicate_singleton_check (b : Builder) (c : Call) :
    (validateArr.contains (callType c) = true →
      0 < b.selectors.countP (fun el => el.type == callType c) →
      applyCall b c = Except.error duplicateErrorMsg) ∧
    (validateArr.contains (callType c) = false →
      applyCall b c ≠ Except.error duplicateErrorMsg) := by
  constructor
  · intro h1 h2
    exact applyCall_error_dup b c ⟨h1, h2⟩
  · intro h1 hcontra
    rw [applyCall_eq] at hcontra
    have hdup : ¬ dupCond b c := by
      intro hd
      have h2 := hd.1
      rw [h1] at h2
      exact Bool.noConfusion h2
    rw [if_neg hdup] at hcontra
    by_cases hck : checkOrder (b.selectors ++ [callFragment c]) = true
    · rw [if_pos hck] at hcontra
      exact absurd hcontra (by simp)
    · rw [if_neg hck] at hcontra
      exact absurd (Except.error.inj hcontra) (by decide)

/-- Witness for C3 (amended): a second pseudoElement raises the duplicate
error even though its rank is in order; a repeated class does not. -/
theorem duplicate_singleton_check_witness :
    applyCall ⟨[⟨"pseudoElement", "::after", 6⟩]⟩ (Call.pseudoElement "before") =
      Except.error duplicateErrorMsg ∧
    applyCall ⟨[⟨"class", ".a", 3⟩]⟩ (Call.classCall "a") ≠
      Except.error duplicateErrorMsg :=
  ⟨(duplicate_singleton_check ⟨[⟨"pseudoElement", "::after", 6⟩]⟩
      (Call.pseudoElement "before")).1 rfl (by decide),
    (duplicate_singleton_check ⟨[⟨"class", ".a", 3⟩]⟩ (Call.classCall "a")).2 rfl⟩

/-- C4: when a call would violate both the uniqueness rule and the ordering
rule at once, the uniqueness check (validateMetod, run before privatMethod)
wins: the call fails with the duplicate-singleton error, not the
out-of-order error. -/
theorem uniqueness_before_ordering (b : Builder) (c : Call)
    (hdup : dupCond b c)
    (horder : checkOrder (b.selectors ++ [callFragment c]) = false) :
    applyCall b c = Except.error duplicateErrorMsg ∧
    applyCall b c ≠ Except.error orderErrorMsg := by
  refine ⟨applyCall_error_dup b c hdup, ?_⟩
  rw [applyCall_error_dup b c hdup]
  intro hcontra
  exact absurd (Except.error.inj hcontra) (by decide)

/-- Witness for C4: a second element after a class violates both rules and
raises the duplicate-singleton error. -/
theorem uniqueness_before_ordering_witness :
    dupCond ⟨[⟨"element", "a", 1⟩, ⟨"class", ".b", 3⟩]⟩ (Call.element "c") ∧
    checkOrder ((⟨[⟨"element", "a", 1⟩, ⟨"class", ".b", 3⟩]⟩ : Builder).selectors ++
        [callFragment (Call.element "c")]) = false ∧
    (applyCall ⟨[⟨"element", "a", 1⟩, ⟨"class", ".b", 3⟩]⟩ (Call.element "c") =
        Except.error duplicateErrorMsg ∧
      applyCall ⟨[⟨"element", "a", 1⟩, ⟨"class", ".b", 3⟩]⟩ (Call.element "c") ≠
        Except.error orderErrorMsg) :=
  ⟨by decide, by decide, uniqueness_before_ordering _ _ (by decide) (by decide)⟩

theorem mem_of_contains {l : List String} {t : String}
    (h : l.contains t = true) : t ∈ l := by
  have h2 : List.elem t l = true := h
  rw [List.elem_eq_mem] at h2
  exact of_decide_eq_true h2

theorem contains_of_mem {l : List String} {t : String} (h : t ∈ l) :
    l.contains t = true := by
  show List.elem t l = true
  rw [List.elem_eq_mem]
  exact decide_eq_true h

theorem invariant_root : Invariant cssSelectorBuilder.rootBuilder := by
  constructor
  · rfl
  · intro t ht
    simp [cssSelectorBuilder.rootBuilder]

theorem invariant_preserved_step (b b2 : Builder) (c : Call)
    (hb : Invariant b) (h : applyCall b c = Except.ok b2) : Invariant b2 := by
  obtain ⟨hdup, hck, hbeq⟩ := applyCall_ok b b2 c h
  subst hbeq
  constructor
  · show nondecreasingB
      ((b.selectors ++ [callFragment c]).map SelectorFragment.order) = true
    rw [← checkOrder_eq_nondecreasingB]
    exact hck
  · intro t ht
    show (b.selectors ++ [callFragment c]).countP (fun el => el.type == t) ≤ 1
    have hbt := hb.2 t ht
    simp only [List.countP_append, List.countP_cons, List.countP_nil]
    cases hbeq2 : (callType c == t) with
    | false =>
      have hf : ((callFragment c).type == t) = false := by
        rw [callFragment_type]
        exact hbeq2
      simp [hf]
      omega
    | true =>
      have hteq : callType c = t := eq_of_beq hbeq2
      have hzero : b.selectors.countP (fun el => el.type == t) = 0 := by
        by_contra hnz
        apply hdup
        constructor
        · rw [hteq]
          exact contains_of_mem ht
        · rw [hteq]
          exact Nat.pos_of_ne_zero hnz
      have htr : ((callFragment c).type == t) = true := by
        rw [callFragment_type]
        exact hbeq2
      simp [htr, hzero]

theorem invariant_runChain (calls : List Call) (b b2 : Builder)
    (hb : Invariant b) (h : runChain b calls = Except.ok b2) : Invariant b2 := by
  induction calls generalizing b with
  | nil =>
    simp only [runChain] at h
    cases h
    exact hb
  | cons c cs ih =>
    rw [runChain] at h
    split at h
    · rename_i b1 hc
      exact ih b1 (invariant_preserved_step b b1 c hb hc) h
    · exact absurd h (by simp)

theorem runChain_ok_of_valid (calls : List Call) (b : Builder)
    (h1 : checkOrder b.selectors = true)
    (h2 : ∀ t ∈ validateArr,
      b.selectors.countP (fun el => el.type == t) +
        calls.countP (fun c => callType c == t) ≤ 1)
    (h3 : nondecreasingB
      ((b.selectors.map SelectorFragment.order).getLastD 0 ::
        calls.map callOrder) = true) :
    ∃ b2, runChain b calls = Except.ok b2 := by
  induction calls generalizing b with
  | nil => exact ⟨b, rfl⟩
  | cons c cs ih =>
    rw [List.map_cons] at h3
    rw [show nondecreasingB
        ((b.selectors.map SelectorFragment.order).getLastD 0 ::
          callOrder c :: cs.map callOrder) =
        (decide ((b.selectors.map SelectorFragment.order).getLastD 0 ≤
            callOrder c) &&
          nondecreasingB (callOrder c :: cs.map callOrder)) from rfl,
      Bool.and_eq_true] at h3
    obtain ⟨hle, htail⟩ := h3
    have hdup : ¬ dupCond b c := by
      intro hd
      have hmem : callType c ∈ validateArr := mem_of_contains hd.1
      have hc2 := h2 (callType c) hmem
      simp only [List.countP_cons, beq_self_eq_true, if_true] at hc2
      have hpos := hd.2
      omega
    have hord : checkOrder (b.selectors ++ [callFragment c]) = true := by
      rw [checkOrder_append, h1, callFragment_order, Bool.true_and]
      exact hle
    have hstep := applyCall_ok_of b c hdup hord
    obtain ⟨b3, hb3⟩ := ih ⟨b.selectors ++ [callFragment c]⟩ hord
      (by
        intro t ht
        have hc2 := h2 t ht
        simp only [List.countP_append, List.countP_cons, List.countP_nil] at hc2 ⊢
        cases hbeq2 : (callType c == t) with
        | false =>
          have hf : ((callFragment c).type == t) = false := by
            rw [callFragment_type]
            exact hbeq2
          simp [hf, hbeq2] at hc2 ⊢
          omega
        | true =>
          have htr : ((callFragment c).type == t) = true := by
            rw [callFragment_type]
            exact hbeq2
          simp [htr, hbeq2] at hc2 ⊢
          omega)
      (by
        have hlast : ((b.selectors ++ [callFragment c]).map
            SelectorFragment.order).getLastD 0 = callOrder c := by
          rw [List.map_append, List.map_cons, List.map_nil,
            List.getLastD_concat, callFragment_order]
        show nondecreasingB
          (((b.selectors ++ [callFragment c]).map
            SelectorFragment.order).getLastD 0 :: cs.map callOrder) = true
        rw [hlast]
        exact htail)
    refine ⟨b3, ?_⟩
    rw [runChain, hstep]
    exact hb3

/-- C6 counterexample: the call sequence element("a").element("b") has
nondecreasing ranks (1, 1), a valid ordering in the claim's sense, yet
building raises the duplicate-singleton error. -/
theorem valid_order_chain_error_counterexample :
    nondecreasingB ([Call.element "a", Call.element "b"].map callOrder) = true ∧
    runChain cssSelectorBuilder.rootBuilder
        [Call.element "a", Call.element "b"] =
      Except.error duplicateErrorMsg :=
  ⟨by decide, rfl⟩

/-- C6 (amended): for every sequence of builder calls whose ranks are
nondecreasing in call order and in which each of the singleton kinds
element, id, pseudoElement occurs at most once, building from the root in
that order never raises an error. -/
theorem valid_chain_succeeds (calls : List Call)
    (h1 : nondecreasingB (calls.map callOrder) = true)
    (h2 : ∀ t ∈ validateArr, calls.countP (fun c => callType c == t) ≤ 1) :
    ∃ b, runChain cssSelectorBuilder.rootBuilder calls = Except.ok b := by
  apply runChain_ok_of_valid calls cssSelectorBuilder.rootBuilder rfl
  · intro t ht
    have h3 := h2 t ht
    simpa [cssSelectorBuilder.rootBuilder] using h3
  · show nondecreasingB (0 :: calls.map callOrder) = true
    rw [nondecreasingB_cons_zero]
    exact h1

/-- Witness for C6 (amended): a chain using all six kinds in rank order
succeeds. -/
theorem valid_chain_succeeds_witness :
    nondecreasingB
        ([Call.element "div", Call.id "main", Call.classCall "a",
          Call.classCall "b", Call.attr "x", Call.pseudoClass "h",
          Call.pseudoElement "p"].map callOrder) = true ∧
    (∀ t ∈ validateArr,
      ([Call.element "div", Call.id "main", Call.classCall "a",
        Call.classCall "b", Call.attr "x", Call.pseudoClass "h",
        Call.pseudoElement "p"].countP (fun c => callType c == t)) ≤ 1) ∧
    ∃ b, runChain cssSelectorBuilder.rootBuilder
        [Call.element "div", Call.id "main", Call.classCall "a",
          Call.classCall "b", Call.attr "x", Call.pseudoClass "h",
          Call.pseudoElement "p"] = Except.ok b :=
  ⟨by decide, by decide, valid_chain_succeeds _ (by decide) (by decide)⟩

/-- C7: every Selector successfully constructed from the root satisfies the
invariant (fragment ranks nondecreasing in append order; element, id and
pseudoElement each occur at most once), and every builder operation on such
a Selector preserves the invariant. -/
theorem selector_invariant (calls : List Call) (b b2 : Builder) (c : Call)
    (h : runChain cssSelectorBuilder.rootBuilder calls = Except.ok b) :
    Invariant b ∧ (applyCall b c = Except.ok b2 → Invariant b2) := by
  have hb := invariant_runChain calls _ b invariant_root h
  exact ⟨hb, fun h2 => invariant_preserved_step b b2 c hb h2⟩

/-- Witness for C7: the Selector built by element("div") satisfies the
invariant and the subsequent id("main") preserves it. -/
theorem selector_invariant_witness :
    runChain cssSelectorBuilder.rootBuilder [Call.element "div"] =
      Except.ok ⟨[⟨"element", "div", 1⟩]⟩ ∧
    applyCall ⟨[⟨"element", "div", 1⟩]⟩ (Call.id "main") =
      Except.ok ⟨[⟨"element", "div", 1⟩, ⟨"id", "#main", 2⟩]⟩ ∧
    (Invariant ⟨[⟨"element", "div", 1⟩]⟩ ∧
      (applyCall ⟨[⟨"element", "div", 1⟩]⟩ (Call.id "main") =
          Except.ok ⟨[⟨"element", "div", 1⟩, ⟨"id", "#main", 2⟩]⟩ →
        Invariant ⟨[⟨"element", "div", 1⟩, ⟨"id", "#main", 2⟩]⟩)) :=
  ⟨rfl, rfl,
    selector_invariant [Call.element "div"] ⟨[⟨"element", "div", 1⟩]⟩
      ⟨[⟨"element", "div", 1⟩, ⟨"id", "#main", 2⟩]⟩ (Call.id "main") rfl⟩
